import Mathlib

/-!
Verification of the vietmarket ingestion/coordination/query substrate.

Shallow embedding of the program parts the claims are about:

* the Convex lease coordinator (`apps/web/convex/leases.ts`),
* the candle batch worker run scripts (`src/unnamed/part_000`-style
  wrapper and `packages/ingest/vn/candles_batch_run.sh`),
* the source HTTP client (`lib/simplize_client.mjs`),
* the sqlite registry DAO (`lib/registry_sqlite.mjs`),
* the news symbol linker (`lib/news_symbol_linker.mjs`),
* the stable JSON hash (`lib/simplize_pipeline.mjs`) with a full
  SHA-256 embedding,
* the history query service (`deploy/history-api/server.mjs`).

All JS millisecond timestamps and counters are modelled as `Int`/`Nat`;
confidences (REAL in sqlite, JS numbers in the linker) are modelled as `Rat`.
-/

namespace VietMarket

/-! ## Lease coordinator (`apps/web/convex/leases.ts`) -/

/-- One row of the `shardLeases` table. -/
structure LeaseRow where
  job : String
  shard : Int
  ownerId : String
  leaseUntilMs : Int
  lastProgressAtMs : Int
  meta : Option String
  updatedAt : Int
deriving DecidableEq, Repr

/-- Arguments of the `leases.tryClaim` mutation. -/
structure TryClaimArgs where
  job : String
  shard : Int
  ownerId : String
  leaseMs : Option Int
  staleMinutes : Int
  meta : Option String
deriving DecidableEq, Repr

/-- Return value of `tryClaim`: either `{ok:false, ownerId, leaseUntilMs,
lastProgressAtMs}` or `{ok:true, claimed:true, ...next}`. -/
inductive TryClaimResult where
  | denied (ownerId : String) (leaseUntilMs : Int) (lastProgressAtMs : Int)
  | claimed (next : LeaseRow)
deriving DecidableEq, Repr

/-- The `ok` field of the returned object. -/
def TryClaimResult.isOk : TryClaimResult → Bool
  | .denied _ _ _ => false
  | .claimed _ => true

/-- `Math.min(Math.max(args.leaseMs ?? 5 * 60_000, 30_000), 30 * 60_000)`. -/
def clampLeaseMs (leaseMs : Option Int) : Int :=
  min (max (leaseMs.getD (5 * 60000)) 30000) (30 * 60000)

/-- `Math.max(1, args.staleMinutes) * 60_000`. -/
def staleMsOf (staleMinutes : Int) : Int :=
  max 1 staleMinutes * 60000

/-- The `tryClaim` mutation handler, acting on the unique `shardLeases` row
for `(args.job, args.shard)` (`row : Option LeaseRow`) at time `t = now()`.
Returns the result together with the row after the mutation. -/
def tryClaim (t : Int) (args : TryClaimArgs) (row : Option LeaseRow) :
    TryClaimResult × Option LeaseRow :=
  let leaseMs := clampLeaseMs args.leaseMs
  let staleMs := staleMsOf args.staleMinutes
  match row with
  | none =>
      -- missing row: canClaim, insert `next` with `lastProgressAtMs = t`
      let next : LeaseRow :=
        ⟨args.job, args.shard, args.ownerId, t + leaseMs, t, args.meta, t⟩
      (.claimed next, some next)
  | some r =>
      if r.leaseUntilMs < t ∨ r.lastProgressAtMs < t - staleMs then
        -- expired or stale: patch with `next`; `lastProgressAtMs` keeps
        -- the existing value (`row?.lastProgressAtMs ?? t`)
        let next : LeaseRow :=
          ⟨args.job, args.shard, args.ownerId, t + leaseMs, r.lastProgressAtMs,
            args.meta, t⟩
        (.claimed next, some next)
      else
        (.denied r.ownerId r.leaseUntilMs r.lastProgressAtMs, some r)

/-- The `renew` mutation handler. -/
def renew (t : Int) (job : String) (shard : Int) (ownerId : String)
    (leaseMs : Option Int) (meta : Option String) (row : Option LeaseRow) :
    Bool × Option LeaseRow :=
  match row with
  | none => (false, none)
  | some r =>
      if r.ownerId ≠ ownerId then (false, some r)
      else
        (true, some { r with leaseUntilMs := t + clampLeaseMs leaseMs,
                             meta := meta.orElse fun _ => r.meta,
                             updatedAt := t,
                             job := job, shard := shard })

/-- The `reportProgress` mutation handler. -/
def reportProgress (t : Int) (ownerId : String) (meta : Option String)
    (row : Option LeaseRow) : Bool × Option LeaseRow :=
  match row with
  | none => (false, none)
  | some r =>
      if r.ownerId ≠ ownerId then (false, some r)
      else
        (true, some { r with lastProgressAtMs := t,
                             meta := meta.orElse fun _ => r.meta,
                             updatedAt := t })

end VietMarket

namespace VietMarket

/-! ### C1: lease mutual exclusion -/

/-- C1. Lease mutual exclusion: for every lease row `L` and every time `now`
with `now < L.lease_until_ms` and `now < L.last_progress_ms +
stale_minutes*60000`, a call to `tryClaim(L.job, L.shard, owner_id)` with any
`owner_id` different from `L.owner_id` returns `{ok:false}` together with the
current `owner_id`, `lease_until_ms` and `last_progress_ms`, and leaves the
row unchanged. -/
theorem tryClaim_mutual_exclusion (t : Int) (args : TryClaimArgs) (r : LeaseRow)
    (hOwner : args.ownerId ≠ r.ownerId)
    (hLease : t < r.leaseUntilMs)
    (hFresh : t < r.lastProgressAtMs + args.staleMinutes * 60000) :
    tryClaim t args (some r) =
      (.denied r.ownerId r.leaseUntilMs r.lastProgressAtMs, some r) := by
  have hstale : args.staleMinutes * 60000 ≤ staleMsOf args.staleMinutes := by
    unfold staleMsOf
    exact mul_le_mul_of_nonneg_right (le_max_right 1 args.staleMinutes)
      (by norm_num)
  have ht : t < r.lastProgressAtMs + staleMsOf args.staleMinutes := by omega
  simp only [tryClaim]
  rw [if_neg]
  omega

/-- Witness for C1 at a concrete lease state. -/
theorem tryClaim_mutual_exclusion_witness :
    ("B" ≠ "A" ∧ (100 : Int) < 200 ∧ (100 : Int) < 90 + 1 * 60000) ∧
    tryClaim 100 ⟨"candles", 0, "B", none, 1, none⟩
        (some ⟨"candles", 0, "A", 200, 90, none, 50⟩) =
      (.denied "A" 200 90, some ⟨"candles", 0, "A", 200, 90, none, 50⟩) :=
  ⟨⟨by decide, by decide, by decide⟩,
    tryClaim_mutual_exclusion 100 ⟨"candles", 0, "B", none, 1, none⟩
      ⟨"candles", 0, "A", 200, 90, none, 50⟩ (by decide) (by decide) (by decide)⟩

/-! ### C3: `last_progress_ms` after a successful claim -/

/-- C3 counterexample. The claim says: after a successful `tryClaim` on an
existing (expired) row, the stored `last_progress_ms` equals
`max(previous last_progress_ms, now)`. At `now = 100` on a row with
`lease_until_ms = 0` and `last_progress_ms = 0` the claim is allowed
(expired), but the stored value is the previous `0`, not `max 0 100 = 100`. -/
theorem tryClaim_lastProgress_counterexample :
    ((tryClaim 100 ⟨"candles", 0, "B", none, 30, none⟩
        (some ⟨"candles", 0, "A", 0, 0, none, 0⟩)).1.isOk = true) ∧
    ((tryClaim 100 ⟨"candles", 0, "B", none, 30, none⟩
        (some ⟨"candles", 0, "A", 0, 0, none, 0⟩)).2.map
          (fun x => x.lastProgressAtMs) = some 0) ∧
    max (0 : Int) 100 = 100 ∧ (some (0 : Int) ≠ some (100 : Int)) := by
  refine ⟨by decide, by decide, by decide, by decide⟩

/-- C3 amended: for every successful `tryClaim` on an existing lease row the
stored `last_progress_ms` after the call equals the previous
`last_progress_ms` (it is carried over unchanged); for a missing row it
equals `now`. -/
theorem tryClaim_lastProgress_amended (t : Int) (args : TryClaimArgs)
    (r : LeaseRow)
    (hSucc : r.leaseUntilMs < t ∨
      r.lastProgressAtMs < t - staleMsOf args.staleMinutes) :
    ((tryClaim t args (some r)).2.map (fun x => x.lastProgressAtMs) =
        some r.lastProgressAtMs) ∧
    ((tryClaim t args none).2.map (fun x => x.lastProgressAtMs) = some t) := by
  constructor
  · simp only [tryClaim]
    rw [if_pos hSucc]
    rfl
  · rfl

/-- Witness for the amended C3 at a concrete expired row. -/
theorem tryClaim_lastProgress_amended_witness :
    ((0 : Int) < 100 ∨ (0 : Int) < 100 - staleMsOf 30) ∧
    ((tryClaim 100 ⟨"candles", 0, "B", none, 30, none⟩
        (some ⟨"candles", 0, "A", 0, 0, none, 0⟩)).2.map
          (fun x => x.lastProgressAtMs) = some 0) ∧
    ((tryClaim 100 ⟨"candles", 0, "B", none, 30, none⟩ none).2.map
          (fun x => x.lastProgressAtMs) = some 100) :=
  ⟨Or.inl (by decide),
    (tryClaim_lastProgress_amended 100 ⟨"candles", 0, "B", none, 30, none⟩
      ⟨"candles", 0, "A", 0, 0, none, 0⟩ (Or.inl (by decide))).1,
    (tryClaim_lastProgress_amended 100 ⟨"candles", 0, "B", none, 30, none⟩
      ⟨"candles", 0, "A", 0, 0, none, 0⟩ (Or.inl (by decide))).2⟩

/-! ### C4: lease expiry boundary -/

/-- C4 counterexample. The claim says a row with `lease_until_ms = now` is
claimable by anyone regardless of `last_progress_ms` freshness. At `now =
100` on a row with `lease_until_ms = 100` and fresh `last_progress_ms = 100`
(staleMinutes 1), the code denies the claim: `canClaim` needs the strict
`row.leaseUntilMs < t`, which fails at the boundary, and the row is not
stale. -/
theorem tryClaim_boundary_counterexample :
    (tryClaim 100 ⟨"candles", 0, "B", none, 1, none⟩
        (some ⟨"candles", 0, "A", 100, 100, none, 50⟩)).1.isOk = false := by
  decide

/-- C4 amended: on a row whose `lease_until_ms` equals `now` exactly, the
expiry disjunct `leaseUntilMs < now` fails (the code is strict in the other
direction), so `tryClaim` succeeds iff the row is stale:
`last_progress_ms < now - max(1, stale_minutes)*60000`. -/
theorem tryClaim_boundary_amended (t : Int) (args : TryClaimArgs) (r : LeaseRow)
    (hB : r.leaseUntilMs = t) :
    (tryClaim t args (some r)).1.isOk = true ↔
      r.lastProgressAtMs < t - staleMsOf args.staleMinutes := by
  have h1 : ¬ r.leaseUntilMs < t := by omega
  simp only [tryClaim]
  by_cases h : r.leaseUntilMs < t ∨ r.lastProgressAtMs < t - staleMsOf args.staleMinutes
  · rw [if_pos h]
    simp only [TryClaimResult.isOk, true_iff]
    exact h.resolve_left h1
  · rw [if_neg h]
    simp only [TryClaimResult.isOk, false_iff, Bool.false_eq_true]
    intro hcon
    exact h (Or.inr hcon)

/-- Witness for the amended C4: at the boundary with fresh progress the claim
is denied, matching the right-hand side being false. -/
theorem tryClaim_boundary_amended_witness :
    ((100 : Int) = 100) ∧
    ((tryClaim 100 ⟨"candles", 0, "B", none, 1, none⟩
        (some ⟨"candles", 0, "A", 100, 100, none, 50⟩)).1.isOk = true ↔
      (100 : Int) < 100 - staleMsOf 1) :=
  ⟨rfl, tryClaim_boundary_amended 100 ⟨"candles", 0, "B", none, 1, none⟩
    ⟨"candles", 0, "A", 100, 100, none, 50⟩ rfl⟩

end VietMarket

namespace VietMarket

/-! ## Candle batch worker run scripts

`packages/ingest/vn/candles_batch_run.sh` and the older wrapper script
(`src/unnamed/part_000`-style, cited as `part_025`) drive one run of the
sharded candle worker.  We model a run as the list of externally visible
events it performs, in program order.  A `backfill tf` event is one
`run(tf, start)` invocation of `candles_backfill.py`, i.e. the candle
fetch + upsert work for that timeframe. -/

/-- Outcome of one `leases:tryClaim` POST to the Convex coordinator. -/
inductive LeaseOutcome where
  | granted
  | deniedBy (owner : String)
  | unreachable
deriving DecidableEq, Repr

/-- Externally visible events of one worker run. -/
inductive WorkerEvent where
  | claimAttempt
  | backfill (tf : String)
  | cursorWrite (nextIndex : Nat)
  | progressReport
  | exitSkipped (reason : String)
  | exitSuccess
deriving DecidableEq, Repr

/-- The older wrapper script (`src/unnamed/part_025`): it loads the universe
and cursor, runs `run(tf, start)` for every configured timeframe, and only
then posts `leases:tryClaim`; on a denied claim it prints
`{ok:true, skipped:'not_owner'}` and exits 0, on a lease POST failure it
prints `{ok:true, skipped:'lease_error'}` and exits 0; otherwise it writes
the cursor, posts `reportProgress`, and exits 0. -/
def part025Run (tfs : List String) (nextIndex : Nat) (lease : LeaseOutcome) :
    List WorkerEvent :=
  tfs.map WorkerEvent.backfill ++ [WorkerEvent.claimAttempt] ++
    match lease with
    | .deniedBy _ => [WorkerEvent.exitSkipped "not_owner"]
    | .unreachable => [WorkerEvent.exitSkipped "lease_error"]
    | .granted =>
        [WorkerEvent.cursorWrite nextIndex, WorkerEvent.progressReport,
          WorkerEvent.exitSuccess]

/-- `packages/ingest/vn/candles_batch_run.sh`: it posts `leases:tryClaim`
before doing any work and exits 0 with a skipped result when denied or when
the coordinator is unreachable; when granted it runs the backfills, posts a
second `tryClaim` (same exit behaviour), then writes the cursor, posts
`reportProgress`, and exits 0. -/
def candlesBatchRun (tfs : List String) (nextIndex : Nat)
    (lease1 lease2 : LeaseOutcome) : List WorkerEvent :=
  WorkerEvent.claimAttempt ::
    match lease1 with
    | .deniedBy _ => [WorkerEvent.exitSkipped "not_owner"]
    | .unreachable => [WorkerEvent.exitSkipped "lease_error"]
    | .granted =>
        tfs.map WorkerEvent.backfill ++ [WorkerEvent.claimAttempt] ++
          match lease2 with
          | .deniedBy _ => [WorkerEvent.exitSkipped "not_owner"]
          | .unreachable => [WorkerEvent.exitSkipped "lease_error"]
          | .granted =>
              [WorkerEvent.cursorWrite nextIndex, WorkerEvent.progressReport,
                WorkerEvent.exitSuccess]

/-- Whether an event is ingest work (a candle fetch + upsert run). -/
def WorkerEvent.isIngestWork : WorkerEvent → Bool
  | .backfill _ => true
  | _ => false

/-- C2 (code bug): the lease-before-work contract fails in the older wrapper
script.  In a run of `part_025` with the default timeframes whose `tryClaim`
is denied by another owner, the full candle backfill (fetch + upsert for
every timeframe) happens before the claim attempt, and the run still exits
with the structured `skipped` result afterwards — so a denied run has
already performed all its ingest work. -/
theorem part025_work_before_claim :
    part025Run ["1d", "1h", "15m"] 20 (.deniedBy "other-node") =
      [WorkerEvent.backfill "1d", WorkerEvent.backfill "1h",
        WorkerEvent.backfill "15m", WorkerEvent.claimAttempt,
        WorkerEvent.exitSkipped "not_owner"] ∧
    ((part025Run ["1d", "1h", "15m"] 20 (.deniedBy "other-node")).takeWhile
        (fun e => e ≠ WorkerEvent.claimAttempt)).any
      WorkerEvent.isIngestWork = true := by
  constructor
  · rfl
  · decide

/-- The rewritten runner satisfies the contract: denied or coordinator-down
runs perform no ingest work, and in every run no ingest work precedes the
first claim attempt. -/
theorem candlesBatchRun_claim_before_work (tfs : List String) (n : Nat)
    (l1 l2 : LeaseOutcome) :
    ((candlesBatchRun tfs n l1 l2).takeWhile
        (fun e => e ≠ WorkerEvent.claimAttempt)).any
      WorkerEvent.isIngestWork = false ∧
    (∀ o, l1 = .deniedBy o →
      candlesBatchRun tfs n l1 l2 =
        [WorkerEvent.claimAttempt, WorkerEvent.exitSkipped "not_owner"]) ∧
    (l1 = .unreachable →
      candlesBatchRun tfs n l1 l2 =
        [WorkerEvent.claimAttempt, WorkerEvent.exitSkipped "lease_error"]) := by
  refine ⟨?_, ?_, ?_⟩
  · simp [candlesBatchRun, List.takeWhile]
  · intro o h
    subst h
    rfl
  · intro h
    subst h
    rfl

end VietMarket

namespace VietMarket

/-! ## Source client (`lib/simplize_client.mjs`)

`fetchJsonWithRetry(url, {timeoutMs, retries = 3, backoffMs = 500, headers})`
loops `attempt = 0 .. retries`.  Each iteration performs one `fetch`: we
model the environment as an oracle giving, per attempt index, either a
completed HTTP response (with status and parsed-JSON body) or a
network-level error (rejection of `fetch`, DNS failure, timeout abort). -/

/-- What one `fetch` attempt yields. -/
inductive AttemptOutcome where
  | response (status : Int) (bodyParses : Bool)
  | netError (err : Nat)
deriving DecidableEq, Repr

/-- Result of `fetchJsonWithRetry`: the returned `{ok, status, body}` object,
or the rethrown last error. -/
inductive FetchResult where
  | returned (ok : Bool) (status : Int) (bodyIsNull : Bool)
  | thrown (err : Nat)
deriving DecidableEq, Repr

/-- Per the WHATWG fetch spec, `res.ok` is `status ∈ [200, 299]`. -/
def resOk (status : Int) : Bool :=
  decide (200 ≤ status ∧ status ≤ 299)

/-- The retry loop.  `attempt` is the current attempt index and `remaining`
is `retries - attempt`.  Any completed response is returned immediately; on a
network error with `attempt < retries`, the loop sleeps
`backoffMs * 2 ^ attempt` and retries; once attempts are exhausted the last
error is rethrown.  The function returns (result, attempts actually
performed, back-off sleeps performed in ms). -/
def fetchGo (oracle : Nat → AttemptOutcome) (backoffMs : Int) :
    Nat → Nat → FetchResult × Nat × List Int
  | attempt, remaining =>
    match oracle attempt with
    | .response status bodyParses =>
        (.returned (resOk status) status (!bodyParses), attempt + 1, [])
    | .netError err =>
        match remaining with
        | 0 => (.thrown err, attempt + 1, [])
        | r + 1 =>
            let rest := fetchGo oracle backoffMs (attempt + 1) r
            (rest.1, rest.2.1, backoffMs * 2 ^ attempt :: rest.2.2)

/-- `fetchJsonWithRetry` with the default options (`retries = 3`,
`backoffMs = 500`), i.e. up to 4 total attempts. -/
def fetchJsonWithRetry (oracle : Nat → AttemptOutcome) :
    FetchResult × Nat × List Int :=
  fetchGo oracle 500 0 3

/-- C5 counterexample.  The claim says an attempt whose HTTP response has a
5xx status is retried with back-off up to 4 total attempts.  With an
environment that answers every attempt with status 500, the call returns
`{ok:false, status:500}` after exactly 1 attempt and performs no back-off
sleep: completed responses — 5xx included — are never retried. -/
theorem fetch_5xx_not_retried :
    fetchJsonWithRetry (fun _ => .response 500 true) =
      (.returned false 500 false, 1, []) ∧ (1 : Nat) < 4 := by
  constructor
  · rfl
  · decide

/-- C5 amended: for every environment, (a) if attempt 0 completes with any
HTTP status `s` — 5xx and 4xx alike — the call returns that response after
exactly one attempt with no retry and no back-off sleep; (b) if every
attempt fails at the network level with errors `es k`, the call performs 4
total attempts with exponential back-off sleeps `[500, 1000, 2000]` ms
(base 500, multiplier 2) and rethrows the last error. -/
theorem fetch_retry_amended (oracle : Nat → AttemptOutcome) (es : Nat → Nat) :
    (∀ s b, oracle 0 = .response s b →
      fetchJsonWithRetry oracle = (.returned (resOk s) s (!b), 1, [])) ∧
    ((∀ k, oracle k = .netError (es k)) →
      fetchJsonWithRetry oracle = (.thrown (es 3), 4, [500, 1000, 2000])) := by
  constructor
  · intro s b h
    simp [fetchJsonWithRetry, fetchGo, h]
  · intro h
    simp [fetchJsonWithRetry, fetchGo, h 0, h 1, h 2, h 3]

/-- Witness for the amended C5: a 404 response on attempt 0 is returned
un-retried, and an all-network-error environment exhausts 4 attempts with
back-off `[500, 1000, 2000]`. -/
theorem fetch_retry_amended_witness :
    (fetchJsonWithRetry (fun _ => .response 404 true) =
      (.returned (resOk 404) 404 false, 1, [])) ∧
    (fetchJsonWithRetry (fun _ => .netError 7) =
      (.thrown 7, 4, [500, 1000, 2000])) :=
  ⟨(fetch_retry_amended (fun _ => .response 404 true) (fun _ => 7)).1 404 true
      rfl,
    (fetch_retry_amended (fun _ => .netError 7) (fun _ => 7)).2 fun _ => rfl⟩

end VietMarket

namespace VietMarket

/-! ## sqlite registry DAO: `replaceFiLatest` (`lib/registry_sqlite.mjs`)

The sqlite `fi_latest` table has columns
`(ticker, period, statement, periodDate, metric, value, fetchedAt)` with
`ticker, period, statement, metric` NOT NULL and primary key
`(ticker, period, statement, periodDate, metric)`.  `replaceFiLatest(db,
rows)` executes `DELETE FROM fi_latest` **outside** any explicit
transaction (node:sqlite autocommits it), returns early when `rows` is
empty, then runs `BEGIN`, the plain `INSERT`s, and `COMMIT`, rolling back
and rethrowing when an insert fails. -/

/-- One candidate `fi_latest` row as passed from JS (fields may be
null/undefined, which violates NOT NULL on insert). -/
structure FiRow where
  ticker : Option String
  period : Option String
  statement : Option String
  periodDate : Option String
  metric : Option String
  value : Option Int
  fetchedAt : Option String
deriving DecidableEq, Repr

/-- The sqlite primary key of `fi_latest`. -/
def FiRow.pk (r : FiRow) :
    Option String × Option String × Option String × Option String ×
      Option String :=
  (r.ticker, r.period, r.statement, r.periodDate, r.metric)

/-- Whether `INSERT INTO fi_latest VALUES (r…)` succeeds against `table`:
all NOT NULL columns present and no primary-key conflict (the statement has
no ON CONFLICT clause). -/
def fiInsertOk (table : List FiRow) (r : FiRow) : Bool :=
  r.ticker.isSome && r.period.isSome && r.statement.isSome &&
    r.metric.isSome && !(table.any fun x => x.pk == r.pk)

/-- Run the INSERT loop inside the transaction; `none` means some insert
threw. -/
def fiInsertAll : List FiRow → List FiRow → Option (List FiRow)
  | table, [] => some table
  | table, r :: rs =>
      if fiInsertOk table r then fiInsertAll (table ++ [r]) rs else none

/-- `replaceFiLatest` over the committed table state.  Returns the committed
table after the call together with whether the call threw.  The `DELETE` is
autocommitted before `BEGIN`, so a failing insert rolls back only to the
post-delete state. -/
def replaceFiLatest (table rows : List FiRow) : List FiRow × Bool :=
  let afterDelete : List FiRow := []
  if rows.isEmpty then (afterDelete, false)
  else
    match fiInsertAll afterDelete rows with
    | some t => (t, false)
    | none => (afterDelete, true)

/-- A well-formed committed row used as the pre-state. -/
def fiRow0 : FiRow :=
  ⟨some "FPT", some "Q", some "is", some "2025-12", some "is1", some 10,
    some "2026-02-13T00:00:00Z"⟩

/-- A well-formed incoming row (whose duplicate will fail the second
INSERT). -/
def fiRow1 : FiRow :=
  ⟨some "HPG", some "Q", some "is", some "2025-12", some "is1", some 20,
    some "2026-02-13T00:00:00Z"⟩

/-- C6 (code bug): `replace_fi_latest` is not atomic.  Starting from a table
holding `fiRow0` and calling `replaceFiLatest` with `[fiRow1, fiRow1]` (the
second insert violates the primary key and throws), the call rethrows — yet
the committed table afterwards is empty: the old rows are durably deleted
and the new rows are absent, exactly the state the claim says can never be
observed.  The spec requires the delete + inserts to run in one
transaction; the code autocommits the `DELETE` before `BEGIN`. -/
theorem replaceFiLatest_not_atomic :
    replaceFiLatest [fiRow0] [fiRow1, fiRow1] = ([], true) ∧
    ([] : List FiRow) ≠ [fiRow0] ∧
    ([] : List FiRow) ≠ [fiRow1, fiRow1] := by
  refine ⟨by decide, by decide, by decide⟩

end VietMarket

namespace VietMarket

/-! ## History query service (`deploy/history-api/server.mjs`) -/

/-- The routes served by the history API. -/
inductive Endpoint where
  | healthz
  | candles
  | latest
  | topMovers
  | newsLatest
  | newsByTicker
  | fundamentalsLatest
  | screener
  | caLatest
  | caByTicker
  | v1AnalyticsOverview
  | v1SentimentOverview
  | v1SentimentTicker
  | v1ContextTicker
  | v1OverallHealth
deriving DecidableEq, Repr

/-- `authOk(req)`: `if (!API_KEY) return false; return req.get('x-api-key')
=== API_KEY;` — `apiKey` is the configured `API_KEY` (empty string when the
environment variable is unset, and `!''` is truthy in JS), `header` is the
request's `x-api-key` value (`none` when absent; `undefined === key` is
false). -/
def authOk (apiKey : String) (header : Option String) : Bool :=
  if apiKey = "" then false
  else header == some apiKey

/-- Outcome of dispatching a request, abstracting over the endpoint bodies:
either the 401 unauthorized JSON error, the un-guarded health check, or
entry into the endpoint's own handler body. -/
inductive Dispatch where
  | errorJson (status : Nat) (error : String)
  | healthCheck
  | handlerBody (e : Endpoint)
deriving DecidableEq, Repr

/-- Request dispatch: every data endpoint's handler starts with
`if (!authOk(req)) return res.status(401).json({ok:false,
error:'unauthorized'})`; `GET /healthz` has no auth guard. -/
def handleRequest (apiKey : String) (header : Option String) :
    Endpoint → Dispatch
  | .healthz => .healthCheck
  | .candles =>
      if authOk apiKey header then .handlerBody .candles
      else .errorJson 401 "unauthorized"
  | .latest =>
      if authOk apiKey header then .handlerBody .latest
      else .errorJson 401 "unauthorized"
  | .topMovers =>
      if authOk apiKey header then .handlerBody .topMovers
      else .errorJson 401 "unauthorized"
  | .newsLatest =>
      if authOk apiKey header then .handlerBody .newsLatest
      else .errorJson 401 "unauthorized"
  | .newsByTicker =>
      if authOk apiKey header then .handlerBody .newsByTicker
      else .errorJson 401 "unauthorized"
  | .fundamentalsLatest =>
      if authOk apiKey header then .handlerBody .fundamentalsLatest
      else .errorJson 401 "unauthorized"
  | .screener =>
      if authOk apiKey header then .handlerBody .screener
      else .errorJson 401 "unauthorized"
  | .caLatest =>
      if authOk apiKey header then .handlerBody .caLatest
      else .errorJson 401 "unauthorized"
  | .caByTicker =>
      if authOk apiKey header then .handlerBody .caByTicker
      else .errorJson 401 "unauthorized"
  | .v1AnalyticsOverview =>
      if authOk apiKey header then .handlerBody .v1AnalyticsOverview
      else .errorJson 401 "unauthorized"
  | .v1SentimentOverview =>
      if authOk apiKey header then .handlerBody .v1SentimentOverview
      else .errorJson 401 "unauthorized"
  | .v1SentimentTicker =>
      if authOk apiKey header then .handlerBody .v1SentimentTicker
      else .errorJson 401 "unauthorized"
  | .v1ContextTicker =>
      if authOk apiKey header then .handlerBody .v1ContextTicker
      else .errorJson 401 "unauthorized"
  | .v1OverallHealth =>
      if authOk apiKey header then .handlerBody .v1OverallHealth
      else .errorJson 401 "unauthorized"

/-- C10. Deny-by-default authentication: when the configured API key is the
empty string (`API_KEY` unset), every request to every data endpoint — for
every value of the `x-api-key` header, including an empty or absent one —
is answered with `401 {ok:false, error:"unauthorized"}`; `GET /healthz`
alone is served without any key check. -/
theorem emptyKey_denies_all (header : Option String) (e : Endpoint)
    (hE : e ≠ .healthz) :
    handleRequest "" header e = .errorJson 401 "unauthorized" ∧
    handleRequest "" header .healthz = .healthCheck := by
  constructor
  · cases e <;> simp [handleRequest, authOk] at hE ⊢
  · rfl

/-- Witness for C10 at concrete header values. -/
theorem emptyKey_denies_all_witness :
    (Endpoint.candles ≠ Endpoint.healthz) ∧
    (handleRequest "" (some "") .candles = .errorJson 401 "unauthorized" ∧
      handleRequest "" (some "") .healthz = .healthCheck) :=
  ⟨by decide, emptyKey_denies_all (some "") .candles (by decide)⟩

end VietMarket

namespace VietMarket

/-! ## sqlite registry DAO: `upsertArticleSymbol` (`lib/registry_sqlite.mjs`)

The sqlite `article_symbols` table is
`(url, ticker, confidence REAL NOT NULL DEFAULT 0.5, method, PRIMARY KEY
(url, ticker, method))`; `upsertArticleSymbol` runs
`INSERT … ON CONFLICT(url, ticker, method) DO UPDATE SET confidence =
MAX(article_symbols.confidence, excluded.confidence)`.

Confidences are rationals; the JS decimal literals `0.95`, `0.6`, … are
written `mkRat 95 100`, `mkRat 60 100`, … -/

/-- One row of the sqlite `article_symbols` table. -/
structure LinkRow where
  url : String
  ticker : String
  confidence : Rat
  method : String
deriving DecidableEq, Repr

/-- Row matches the conflict target `(url, ticker, method)`. -/
def linkKeyMatch (u t m : String) (x : LinkRow) : Bool :=
  x.url == u && x.ticker == t && x.method == m

/-- `upsertArticleSymbol`: insert, or on `(url, ticker, method)` conflict
raise the stored confidence to the max of old and new. -/
def upsertArticleSymbol (table : List LinkRow) (u t : String) (c : Rat)
    (m : String) : List LinkRow :=
  if table.any (linkKeyMatch u t m) then
    table.map fun x =>
      if linkKeyMatch u t m x then
        { x with confidence := max x.confidence c }
      else x
  else table ++ [⟨u, t, c, m⟩]

/-- The stored confidence for a `(url, ticker, method)` key, if present. -/
def lookupConf (table : List LinkRow) (u t m : String) : Option Rat :=
  (table.find? (linkKeyMatch u t m)).map fun x => x.confidence

/-- Number of rows for a given `(url, ticker)` pair. -/
def pairCount (table : List LinkRow) (u t : String) : Nat :=
  table.countP fun x => x.url == u && x.ticker == t

/-- C7 counterexample.  The claim says the link store holds at most one row
per `(article_url, ticker)` pair and that re-links monotonically raise the
pair's confidence.  The sqlite conflict target includes `method`: linking
the same article/ticker first via the paren pattern (0.95) and then via the
token pattern (0.6) leaves two rows for the pair, the second stored with
confidence 0.6 < 0.95. -/
theorem upsertArticleSymbol_pair_counterexample :
    pairCount
      (upsertArticleSymbol
        (upsertArticleSymbol [] "https://e.vn/a" "FPT" (mkRat 95 100)
          "title_paren")
        "https://e.vn/a" "FPT" (mkRat 60 100) "title_token")
      "https://e.vn/a" "FPT" = 2 ∧
    upsertArticleSymbol
        (upsertArticleSymbol [] "https://e.vn/a" "FPT" (mkRat 95 100)
          "title_paren")
        "https://e.vn/a" "FPT" (mkRat 60 100) "title_token" =
      [⟨"https://e.vn/a", "FPT", mkRat 95 100, "title_paren"⟩,
        ⟨"https://e.vn/a", "FPT", mkRat 60 100, "title_token"⟩] ∧
    ¬ ((2 : Nat) ≤ 1) ∧ mkRat 60 100 < mkRat 95 100 := by
  refine ⟨by decide, by decide, by decide, by decide⟩

/-- Helper: the update step of the conflict branch preserves whether a row
matches the key (it only changes `confidence`). -/
theorem linkKeyMatch_after_update (u t m : String) (c : Rat) (x : LinkRow) :
    linkKeyMatch u t m
      (if linkKeyMatch u t m x then { x with confidence := max x.confidence c }
       else x) = linkKeyMatch u t m x := by
  by_cases h : linkKeyMatch u t m x = true
  · rw [if_pos h]
    simpa [linkKeyMatch] using h
  · rw [if_neg h]

/-- C7 amended: the sqlite link store keys rows by the triple
`(article_url, ticker, method)`, not by the pair: provided the table holds
at most one row for the triple, after `upsertArticleSymbol` it holds exactly
one, whose stored confidence is the supplied value for a fresh triple and
`max(previous, supplied)` on conflict — so per `(url, ticker, method)` the
confidence is monotonically non-decreasing. -/
theorem upsertArticleSymbol_per_method (table : List LinkRow)
    (u t m : String) (c : Rat)
    (hUniq : (table.countP (linkKeyMatch u t m)) ≤ 1) :
    lookupConf (upsertArticleSymbol table u t c m) u t m =
      some (match lookupConf table u t m with
            | some c0 => max c0 c
            | none => c) ∧
    (upsertArticleSymbol table u t c m).countP (linkKeyMatch u t m) = 1 := by
  have hupd : (linkKeyMatch u t m ∘ fun x =>
      if linkKeyMatch u t m x then { x with confidence := max x.confidence c }
      else x) = linkKeyMatch u t m := by
    funext x
    exact linkKeyMatch_after_update u t m c x
  by_cases hAny : table.any (linkKeyMatch u t m) = true
  · -- conflict branch: the table is mapped
    have hEq : upsertArticleSymbol table u t c m = table.map fun x =>
        if linkKeyMatch u t m x then
          { x with confidence := max x.confidence c } else x := by
      unfold upsertArticleSymbol
      rw [if_pos hAny]
    have hPos : 0 < table.countP (linkKeyMatch u t m) := by
      rw [List.countP_pos_iff]
      simpa [List.any_eq_true] using hAny
    have hOne : table.countP (linkKeyMatch u t m) = 1 := le_antisymm hUniq hPos
    obtain ⟨x₀, hFind⟩ : ∃ x₀, table.find? (linkKeyMatch u t m) = some x₀ := by
      have : (table.find? (linkKeyMatch u t m)).isSome := by
        rw [List.find?_isSome]
        simpa [List.any_eq_true] using hAny
      exact Option.isSome_iff_exists.mp this
    have hx₀ : linkKeyMatch u t m x₀ = true := List.find?_some hFind
    constructor
    · rw [hEq, lookupConf, List.find?_map, hupd, hFind, lookupConf, hFind]
      simp [hx₀]
    · rw [hEq, List.countP_map, hupd]
      exact hOne
  · -- fresh key: the row is appended
    have hEq : upsertArticleSymbol table u t c m =
        table ++ [⟨u, t, c, m⟩] := by
      unfold upsertArticleSymbol
      rw [if_neg hAny]
    have hAll : ∀ x ∈ table, ¬ linkKeyMatch u t m x = true := by
      intro x hx hcon
      exact hAny (List.any_eq_true.mpr ⟨x, hx, hcon⟩)
    have hFindNone : table.find? (linkKeyMatch u t m) = none :=
      List.find?_eq_none.mpr hAll
    have hCount0 : table.countP (linkKeyMatch u t m) = 0 :=
      List.countP_eq_zero.mpr hAll
    have hNew : linkKeyMatch u t m ⟨u, t, c, m⟩ = true := by
      simp [linkKeyMatch]
    constructor
    · rw [hEq, lookupConf, List.find?_append, hFindNone, lookupConf, hFindNone]
      simp [hNew]
    · rw [hEq, List.countP_append, hCount0]
      simp [hNew]
/-- Witness for the amended C7: a fresh triple stores the supplied
confidence; the count hypothesis is discharged on the empty table. -/
theorem upsertArticleSymbol_per_method_witness :
    (([] : List LinkRow).countP
        (linkKeyMatch "https://e.vn/a" "FPT" "title_paren") ≤ 1) ∧
    lookupConf
      (upsertArticleSymbol [] "https://e.vn/a" "FPT" (mkRat 95 100)
        "title_paren")
      "https://e.vn/a" "FPT" "title_paren" = some (mkRat 95 100) := by
  refine ⟨by decide, ?_⟩
  have h := (upsertArticleSymbol_per_method [] "https://e.vn/a" "FPT"
    "title_paren" (mkRat 95 100) (by decide)).1
  simpa [lookupConf, List.find?] using h

end VietMarket

namespace VietMarket

/-! ## News symbol linker (`lib/news_symbol_linker.mjs`)

`linkSymbolsCore` uppercases the input and runs five `matchAll` passes:

* `/\(([A-Z]{2,5})\)/g` — confidence 0.95, method `paren`;
* `/\b([A-Z]{2,5})\s*\((HOSE|HNX|UPCOM)\)\b/g` — 0.92, `exchange_paren`;
* `/\b(HOSE|HNX|UPCOM)\s*[:\-]\s*([A-Z]{2,5})\b/g` — 0.92, `exchange_colon`;
* `/(?:CỔ\s*PHIẾU|MÃ\s*(?:CK\s*)?|MÃ\s*CHỨNG\s*KHOÁN\s*)([A-Z]{2,5})/g` —
  0.90, `keyword`;
* `/\b([A-Z]{2,5})\b/g` — 0.60, `token`.

Each regex is embedded as a scanner over the character list with JS
semantics: left-to-right non-overlapping matches, ordered alternation with
backtracking, greedy quantifiers, and `\b` as a `\w`/non-`\w` transition
(`\w = [A-Za-z0-9_]`).  Because `[A-Z]{2,5}` matches a contiguous run of
letters, greediness + backtracking reduce to conditions on the full run
length and the following character.  `\s` is modelled by the common
whitespace characters (the inputs at issue only contain spaces). -/

/-- `[A-Z]`. -/
def isAZ (c : Char) : Bool := 'A' ≤ c && c ≤ 'Z'

/-- `[0-9]`. -/
def isDigitCh (c : Char) : Bool := '0' ≤ c && c ≤ '9'

/-- JS `\w`. -/
def isWordChar (c : Char) : Bool :=
  isAZ c || ('a' ≤ c && c ≤ 'z') || isDigitCh c || c == '_'

/-- JS `\s` (common subset). -/
def isSpaceCh (c : Char) : Bool :=
  c == ' ' || c == '\t' || c == '\n' || c == '\r'

/-- `\b` on the left of a `\w` character: the previous character (if any)
is not a word character. -/
def prevNonWord : Option Char → Bool
  | none => true
  | some c => !isWordChar c

/-- `\b` on the right of a `\w` character: the next character (if any) is
not a word character. -/
def nextNonWord : List Char → Bool
  | [] => true
  | c :: _ => !isWordChar c

/-- A word character follows (used for `\b` after a non-`\w` character such
as `)`). -/
def nextIsWord : List Char → Bool
  | [] => false
  | c :: _ => isWordChar c

/-- Match a literal character sequence, returning the rest. -/
def matchLit : List Char → List Char → Option (List Char)
  | [], l => some l
  | _ :: _, [] => none
  | p :: ps, c :: cs => if c = p then matchLit ps cs else none

/-- `JS String.prototype.toUpperCase`, for ASCII letters and the Vietnamese
lowercase letters. -/
def jsUpperChar (c : Char) : Char :=
  if 'a' ≤ c && c ≤ 'z' then Char.ofNat (c.toNat - 32)
  else match c with
  | 'à' => 'À' | 'á' => 'Á' | 'ả' => 'Ả' | 'ã' => 'Ã' | 'ạ' => 'Ạ'
  | 'ă' => 'Ă' | 'ằ' => 'Ằ' | 'ắ' => 'Ắ' | 'ẳ' => 'Ẳ' | 'ẵ' => 'Ẵ'
  | 'ặ' => 'Ặ' | 'â' => 'Â' | 'ầ' => 'Ầ' | 'ấ' => 'Ấ' | 'ẩ' => 'Ẩ'
  | 'ẫ' => 'Ẫ' | 'ậ' => 'Ậ' | 'è' => 'È' | 'é' => 'É' | 'ẻ' => 'Ẻ'
  | 'ẽ' => 'Ẽ' | 'ẹ' => 'Ẹ' | 'ê' => 'Ê' | 'ề' => 'Ề' | 'ế' => 'Ế'
  | 'ể' => 'Ể' | 'ễ' => 'Ễ' | 'ệ' => 'Ệ' | 'ì' => 'Ì' | 'í' => 'Í'
  | 'ỉ' => 'Ỉ' | 'ĩ' => 'Ĩ' | 'ị' => 'Ị' | 'ò' => 'Ò' | 'ó' => 'Ó'
  | 'ỏ' => 'Ỏ' | 'õ' => 'Õ' | 'ọ' => 'Ọ' | 'ô' => 'Ô' | 'ồ' => 'Ồ'
  | 'ố' => 'Ố' | 'ổ' => 'Ổ' | 'ỗ' => 'Ỗ' | 'ộ' => 'Ộ' | 'ơ' => 'Ơ'
  | 'ờ' => 'Ờ' | 'ớ' => 'Ớ' | 'ở' => 'Ở' | 'ỡ' => 'Ỡ' | 'ợ' => 'Ợ'
  | 'ù' => 'Ù' | 'ú' => 'Ú' | 'ủ' => 'Ủ' | 'ũ' => 'Ũ' | 'ụ' => 'Ụ'
  | 'ư' => 'Ư' | 'ừ' => 'Ừ' | 'ứ' => 'Ứ' | 'ử' => 'Ử' | 'ữ' => 'Ữ'
  | 'ự' => 'Ự' | 'ỳ' => 'Ỳ' | 'ý' => 'Ý' | 'ỷ' => 'Ỷ' | 'ỹ' => 'Ỹ'
  | 'ỵ' => 'Ỵ' | 'đ' => 'Đ'
  | c => c

/-- Uppercase a whole string. -/
def jsToUpper (s : String) : String :=
  String.mk (s.data.map jsUpperChar)

/-- `/\(([A-Z]{2,5})\)/`: an opening paren, a full letter run of length
2–5, a closing paren.  (With a longer run no backtracking candidate is
followed by `)`.) -/
def matchParenP (_prev : Option Char) (l : List Char) :
    Option (String × List Char) :=
  match l with
  | '(' :: rest =>
      let s := rest.span isAZ
      match s.2 with
      | ')' :: rest2 =>
          if 2 ≤ s.1.length && s.1.length ≤ 5 then
            some (String.mk s.1, rest2)
          else none
      | _ => none
  | _ => none

/-- Ordered alternation `HOSE|HNX|UPCOM` (the alternatives are mutually
exclusive, so committing is sound). -/
def matchExchange (l : List Char) : Option (List Char) :=
  match matchLit ['H', 'O', 'S', 'E'] l with
  | some r => some r
  | none =>
      match matchLit ['H', 'N', 'X'] l with
      | some r => some r
      | none => matchLit ['U', 'P', 'C', 'O', 'M'] l

/-- `/\b([A-Z]{2,5})\s*\((HOSE|HNX|UPCOM)\)\b/`: the capture must be the
whole letter run (any shorter candidate is followed by a letter, failing
`\s*\(`); the trailing `\b` sits after `)`, a non-word character, so it
requires a following word character. -/
def matchExchangeParen (prev : Option Char) (l : List Char) :
    Option (String × List Char) :=
  if prevNonWord prev then
    let s := l.span isAZ
    if 2 ≤ s.1.length && s.1.length ≤ 5 then
      let sp := s.2.span isSpaceCh
      match sp.2 with
      | '(' :: rest =>
          match matchExchange rest with
          | some rest2 =>
              match rest2 with
              | ')' :: rest3 =>
                  if nextIsWord rest3 then some (String.mk s.1, rest3)
                  else none
              | _ => none
          | none => none
      | _ => none
    else none
  else none

/-- `/\b(HOSE|HNX|UPCOM)\s*[:\-]\s*([A-Z]{2,5})\b/`. -/
def matchExchangeColon (prev : Option Char) (l : List Char) :
    Option (String × List Char) :=
  if prevNonWord prev then
    match matchExchange l with
    | some rest =>
        let sp := rest.span isSpaceCh
        match sp.2 with
        | c :: rest2 =>
            if c = ':' || c = '-' then
              let sp2 := rest2.span isSpaceCh
              let s := sp2.2.span isAZ
              if 2 ≤ s.1.length && s.1.length ≤ 5 && nextNonWord s.2 then
                some (String.mk s.1, s.2)
              else none
            else none
        | [] => none
    | none => none
  else none

/-- Greedy `([A-Z]{2,5})` with no trailing assertion: take up to five of
the letter run (at least two); the remainder of the run stays in the
unconsumed input. -/
def capAZ25 (l : List Char) : Option (String × List Char) :=
  let s := l.span isAZ
  if 2 ≤ s.1.length then
    some (String.mk (s.1.take 5), s.1.drop 5 ++ s.2)
  else none

/-- `/(?:CỔ\s*PHIẾU|MÃ\s*(?:CK\s*)?|MÃ\s*CHỨNG\s*KHOÁN\s*)([A-Z]{2,5})/`:
ordered alternation with backtracking; the greedy optional `(?:CK\s*)?` is
tried with `CK` first.  Note that the first alternative has no trailing
`\s*`, so the capture must start right after `PHIẾU`. -/
def matchKeyword (_prev : Option Char) (l : List Char) :
    Option (String × List Char) :=
  let alt1 :=
    match matchLit ['C', 'Ổ'] l with
    | some r =>
        let sp := r.span isSpaceCh
        match matchLit ['P', 'H', 'I', 'Ế', 'U'] sp.2 with
        | some r2 => capAZ25 r2
        | none => none
    | none => none
  match alt1 with
  | some res => some res
  | none =>
      let alt2 :=
        match matchLit ['M', 'Ã'] l with
        | some r =>
            let sp := r.span isSpaceCh
            let withCK :=
              match matchLit ['C', 'K'] sp.2 with
              | some r2 =>
                  let sp2 := r2.span isSpaceCh
                  capAZ25 sp2.2
              | none => none
            match withCK with
            | some res => some res
            | none => capAZ25 sp.2
        | none => none
      match alt2 with
      | some res => some res
      | none =>
          match matchLit ['M', 'Ã'] l with
          | some r =>
              let sp := r.span isSpaceCh
              match matchLit ['C', 'H', 'Ứ', 'N', 'G'] sp.2 with
              | some r2 =>
                  let sp2 := r2.span isSpaceCh
                  match matchLit ['K', 'H', 'O', 'Á', 'N'] sp2.2 with
                  | some r3 =>
                      let sp3 := r3.span isSpaceCh
                      capAZ25 sp3.2
                  | none => none
              | none => none
          | none => none

/-- `/\b([A-Z]{2,5})\b/`: a full letter run of length 2–5 delimited by
non-word context on both sides. -/
def matchToken (prev : Option Char) (l : List Char) :
    Option (String × List Char) :=
  if prevNonWord prev then
    let s := l.span isAZ
    if 2 ≤ s.1.length && s.1.length ≤ 5 && nextNonWord s.2 then
      some (String.mk s.1, s.2)
    else none
  else none

/-- `matchAll` in fuelled form: try the pattern at each position from left
to right; on a match, emit the capture and continue after the matched
region (all the matchers above consume at least one character). -/
def scanGo (m : Option Char → List Char → Option (String × List Char)) :
    Option Char → List Char → Nat → List String
  | _, _, 0 => []
  | _, [], _ + 1 => []
  | prev, c :: cs, fuel + 1 =>
      match m prev (c :: cs) with
      | some (tk, rest) =>
          let consumed := (c :: cs).length - rest.length
          tk :: scanGo m (((c :: cs).take consumed).getLast?) rest fuel
      | none => scanGo m (some c) cs fuel

/-- Run a pattern over a whole character list. -/
def scanAll (m : Option Char → List Char → Option (String × List Char))
    (l : List Char) : List String :=
  scanGo m none l l.length

/-- The stopword set. -/
def STOPWORDS : List String :=
  ["ETF", "USD", "VND", "VNINDEX", "HNX", "HOSE", "UPCOM", "CTCP", "VNI"]

/-- `validTicker`: `/^[A-Z]{2,5}$/.test(tk) && !STOPWORDS.has(tk)`. -/
def validTicker (tk : String) : Bool :=
  2 ≤ tk.length && tk.length ≤ 5 && tk.data.all isAZ &&
    !(STOPWORDS.contains tk)

/-- One linker hit `{ticker, confidence, method}`. -/
structure Hit where
  ticker : String
  confidence : Rat
  method : String
deriving DecidableEq, Repr

/-- `addHit`: keep the existing entry unless the new confidence is strictly
higher (a JS `Map` keeps the original insertion position on re-`set`). -/
def addHit (hits : List Hit) (tk : String) (c : Rat) (m : String) :
    List Hit :=
  match hits.find? fun h => h.ticker == tk with
  | some prev =>
      if prev.confidence < c then
        hits.map fun h => if h.ticker == tk then ⟨tk, c, m⟩ else h
      else hits
  | none => hits ++ [⟨tk, c, m⟩]

/-- One `matchAll` loop body: per captured ticker, skip invalid tickers and
(when a known set is given) unknown ones, then `addHit`. -/
def addHits (hits : List Hit) (tks : List String)
    (known : Option (List String)) (c : Rat) (m : String) : List Hit :=
  tks.foldl
    (fun acc tk =>
      if validTicker tk &&
          (match known with
           | none => true
           | some ks => ks.contains tk) then
        addHit acc tk c m
      else acc)
    hits

/-- `linkSymbolsCore(text, knownTickers, prefix)` (the JS parameter named
`prefix` is `pre` here).  The confidences 0.95 / 0.92 / 0.9 / 0.6 are
written `mkRat n 100`. -/
def linkSymbolsCore (text : String) (known : Option (List String))
    (pre : String) : List Hit :=
  let l := (jsToUpper text).data
  let h1 := addHits [] (scanAll matchParenP l) known (mkRat 95 100)
    (pre ++ "paren")
  let h2 := addHits h1 (scanAll matchExchangeParen l) known (mkRat 92 100)
    (pre ++ "exchange_paren")
  let h3 := addHits h2 (scanAll matchExchangeColon l) known (mkRat 92 100)
    (pre ++ "exchange_colon")
  let h4 := addHits h3 (scanAll matchKeyword l) known (mkRat 90 100)
    (pre ++ "keyword")
  let h5 := addHits h4 (scanAll matchToken l) known (mkRat 60 100)
    (pre ++ "token")
  h5

/-- The `finalize` sort comparator: `b.confidence - a.confidence ||
a.ticker.localeCompare(b.ticker)` — `a` stays before `b` iff `a` has the
larger confidence, or equal confidence and smaller ticker. -/
def hitBefore (a b : Hit) : Bool :=
  b.confidence < a.confidence ||
    (a.confidence == b.confidence && a.ticker < b.ticker)

/-- Stable insertion for `finalize`'s sort. -/
def insertHit (a : Hit) : List Hit → List Hit
  | [] => [a]
  | x :: xs => if hitBefore x a then x :: insertHit a xs else a :: x :: xs

/-- `finalize`: sort by confidence desc, ticker asc. -/
def sortHits : List Hit → List Hit
  | [] => []
  | x :: xs => insertHit x (sortHits xs)

/-- `linkSymbolsFromTitle(title, knownTickers)`. -/
def linkSymbolsFromTitle (title : String) (known : Option (List String)) :
    List Hit :=
  sortHits (linkSymbolsCore title known "title_")

/-- `linkSymbolsFromText(text, knownTickers)`. -/
def linkSymbolsFromText (text : String) (known : Option (List String)) :
    List Hit :=
  sortHits (linkSymbolsCore text known "body_")

/-- The scenario title from the spec. -/
def vnTitle : String := "Cổ phiếu FPT tăng mạnh, HPG (HPG) bứt tốc"

/-- C8 (code bug): evaluating the linker on the scenario title with
`known = {FPT, HPG, VNM}`.  HPG is found at 0.95 via the paren pattern and
VNM is absent, as claimed — but FPT is found only at 0.60 via the bare
token fallback, not at ≥ 0.9: the keyword regex's first alternative
`CỔ\s*PHIẾU` has no trailing `\s*` (unlike the `MÃ…` alternatives), so the
capture `([A-Z]{2,5})` must start immediately after `PHIẾU` and the phrase
`CỔ PHIẾU FPT`, which the pattern's own comment says it should match, is
missed because of the space. -/
theorem linker_scenario_keyword_broken :
    linkSymbolsFromTitle vnTitle (some ["FPT", "HPG", "VNM"]) =
      [⟨"HPG", mkRat 95 100, "title_paren"⟩,
        ⟨"FPT", mkRat 60 100, "title_token"⟩] ∧
    ((linkSymbolsFromTitle vnTitle (some ["FPT", "HPG", "VNM"])).any
        fun h => h.ticker == "FPT" && !(h.confidence < mkRat 90 100)) =
      false ∧
    ((linkSymbolsFromTitle vnTitle (some ["FPT", "HPG", "VNM"])).any
        fun h => h.ticker == "HPG" && !(h.confidence < mkRat 90 100)) =
      true ∧
    ((linkSymbolsFromTitle vnTitle (some ["FPT", "HPG", "VNM"])).any
        fun h => h.ticker == "VNM") = false := by
  refine ⟨by decide, by decide, by decide, by decide⟩

end VietMarket

namespace VietMarket

/-! ## Stable JSON hashing (`lib/simplize_pipeline.mjs`)

`stableStringify` canonicalizes JSON (object keys sorted recursively,
arrays in order, scalars per `JSON.stringify`); `blockHash` is the
hex-encoded SHA-256 of that string (`crypto.createHash('sha256')`).

JSON values are modelled with integer numbers (the payloads at issue are
integers; `JSON.stringify` then prints them in decimal, as `toString` does
here).  Keys are sorted by `<` on strings, matching `Array.prototype.sort`'s
code-unit order for BMP text.  In the object case, the source sorts the
keys and then renders each value; since rendering a value does not depend
on its position, we render first (structurally) and then sort the rendered
fields by their key, which yields the identical string. -/

/-- JSON values. -/
inductive Js where
  | null
  | bool (b : Bool)
  | num (n : Int)
  | str (s : String)
  | arr (elems : List Js)
  | obj (fields : List (String × Js))

/-- Lowercase hex digit. -/
def hexDigitChar (n : Nat) : Char :=
  if n < 10 then Char.ofNat (48 + n) else Char.ofNat (87 + n)

/-- `JSON.stringify` escaping of one character. -/
def escapeChar (c : Char) : String :=
  if c = '"' then "\\\""
  else if c = '\\' then "\\\\"
  else if c = '\n' then "\\n"
  else if c = '\r' then "\\r"
  else if c = '\t' then "\\t"
  else if c.toNat = 8 then "\\b"
  else if c.toNat = 12 then "\\f"
  else if c.toNat < 32 then
    "\\u00" ++ String.mk [hexDigitChar (c.toNat / 16), hexDigitChar (c.toNat % 16)]
  else String.singleton c

/-- Escape a character list. -/
def escapeList : List Char → List Char
  | [] => []
  | c :: cs => (escapeChar c).data ++ escapeList cs

/-- `JSON.stringify` of a string value. -/
def jsonQuote (s : String) : String :=
  String.mk ('"' :: (escapeList s.data ++ ['"']))

/-- `Array.prototype.join(',')`. -/
def joinComma (xs : List String) : String :=
  match xs with
  | [] => ""
  | x :: rest => rest.foldl (fun acc s => acc ++ "," ++ s) x

/-- Insert a rendered field by key order (`keys.sort()`). -/
def insertField (a : String × String) :
    List (String × String) → List (String × String)
  | [] => [a]
  | x :: xs => if x.1 < a.1 then x :: insertField a xs else a :: x :: xs

/-- Sort rendered fields by key. -/
def sortRendered : List (String × String) → List (String × String)
  | [] => []
  | x :: xs => insertField x (sortRendered xs)

mutual

/-- `stableStringify`. -/
def stableStringify : Js → String
  | .null => "null"
  | .bool true => "true"
  | .bool false => "false"
  | .num n => toString n
  | .str s => jsonQuote s
  | .arr xs => "[" ++ joinComma (ssList xs) ++ "]"
  | .obj fs =>
      "\x7b" ++
        joinComma ((sortRendered (ssFields fs)).map
          fun kv => jsonQuote kv.1 ++ ":" ++ kv.2) ++ "\x7d"

/-- Render the elements of an array. -/
def ssList : List Js → List String
  | [] => []
  | x :: xs => stableStringify x :: ssList xs

/-- Render the fields of an object (keys paired with rendered values). -/
def ssFields : List (String × Js) → List (String × String)
  | [] => []
  | kv :: fs => (kv.1, stableStringify kv.2) :: ssFields fs

end

/-! ### SHA-256 (FIPS 180-4), over `Nat` with explicit mod `2^32` -/

/-- Truncate to 32 bits. -/
def w32 (x : Nat) : Nat := x % 4294967296

/-- Truncate to 8 bits. -/
def w8 (x : Nat) : Nat := x % 256

/-- Rotate a 32-bit word right by `n`. -/
def rotr32 (n x : Nat) : Nat := w32 ((x >>> n) ||| (x <<< (32 - n)))

def bigSigma0 (x : Nat) : Nat :=
  rotr32 2 x ^^^ rotr32 13 x ^^^ rotr32 22 x

def bigSigma1 (x : Nat) : Nat :=
  rotr32 6 x ^^^ rotr32 11 x ^^^ rotr32 25 x

def smallSigma0 (x : Nat) : Nat :=
  rotr32 7 x ^^^ rotr32 18 x ^^^ (x >>> 3)

def smallSigma1 (x : Nat) : Nat :=
  rotr32 17 x ^^^ rotr32 19 x ^^^ (x >>> 10)

/-- `Ch(x,y,z)`; `¬x` on 32 bits is `x ^^^ 0xffffffff`. -/
def chFn (x y z : Nat) : Nat := (x &&& y) ^^^ ((x ^^^ 4294967295) &&& z)

/-- `Maj(x,y,z)`. -/
def majFn (x y z : Nat) : Nat := (x &&& y) ^^^ (x &&& z) ^^^ (y &&& z)

/-- Round constants (FIPS 180-4 §4.2.2, the 32 high bits of the cube
roots of the first 64 primes), written in decimal. -/
def sha256K : List Nat :=
  [1116352408, 1899447441, 3049323471, 3921009573,
   961987163, 1508970993, 2453635748, 2870763221,
   3624381080, 310598401, 607225278, 1426881987,
   1925078388, 2162078206, 2614888103, 3248222580,
   3835390401, 4022224774, 264347078, 604807628,
   770255983, 1249150122, 1555081692, 1996064986,
   2554220882, 2821834349, 2952996808, 3210313671,
   3336571891, 3584528711, 113926993, 338241895,
   666307205, 773529912, 1294757372, 1396182291,
   1695183700, 1986661051, 2177026350, 2456956037,
   2730485921, 2820302411, 3259730800, 3345764771,
   3516065817, 3600352804, 4094571909, 275423344,
   430227734, 506948616, 659060556, 883997877,
   958139571, 1322822218, 1537002063, 1747873779,
   1955562222, 2024104815, 2227730452, 2361852424,
   2428436474, 2756734187, 3204031479, 3329325298]

/-- The eight working registers. -/
structure Sha256State where
  a : Nat
  b : Nat
  c : Nat
  d : Nat
  e : Nat
  f : Nat
  g : Nat
  h : Nat
deriving DecidableEq, Repr

/-- Initial hash value. -/
def sha256Init : Sha256State :=
  ⟨1779033703, 3144134277, 1013904242, 2773480762,
   1359893119, 2600822924, 528734635, 1541459225⟩

/-- One compression round; `kw` is `K[i] + W[i]`. -/
def sha256Round (s : Sha256State) (kw : Nat) : Sha256State :=
  let t1 := w32 (s.h + bigSigma1 s.e + chFn s.e s.f s.g + kw)
  let t2 := w32 (bigSigma0 s.a + majFn s.a s.b s.c)
  ⟨w32 (t1 + t2), s.a, s.b, s.c, w32 (s.d + t1), s.e, s.f, s.g⟩

/-- Big-endian 32-bit words from bytes. -/
def words16 : List Nat → List Nat
  | b0 :: b1 :: b2 :: b3 :: rest =>
      (((b0 * 256 + b1) * 256 + b2) * 256 + b3) :: words16 rest
  | _ => []

/-- Next message-schedule word from the current schedule. -/
def schedNext (w : List Nat) : Nat :=
  let n := w.length
  w32 (smallSigma1 (w.getD (n - 2) 0) + w.getD (n - 7) 0 +
       smallSigma0 (w.getD (n - 15) 0) + w.getD (n - 16) 0)

/-- Extend the schedule by `k` words. -/
def schedExtend (w : List Nat) : Nat → List Nat
  | 0 => w
  | k + 1 => schedExtend (w ++ [schedNext w]) k

/-- Word-wise mod-`2^32` addition of the pre-block state and the
post-round registers. -/
def addStates (x y : Sha256State) : Sha256State :=
  ⟨w32 (x.a + y.a), w32 (x.b + y.b), w32 (x.c + y.c), w32 (x.d + y.d),
   w32 (x.e + y.e), w32 (x.f + y.f), w32 (x.g + y.g), w32 (x.h + y.h)⟩

/-- Compress one 64-byte block into the state. -/
def processBlock (st : Sha256State) (block : List Nat) : Sha256State :=
  let ws := schedExtend (words16 block) 48
  let kws := (sha256K.zip ws).map fun p => p.1 + p.2
  addStates st (kws.foldl sha256Round st)

/-- The 8-byte big-endian bit length. -/
def lenBytes64 (bitLen : Nat) : List Nat :=
  [w8 (bitLen >>> 56), w8 (bitLen >>> 48), w8 (bitLen >>> 40),
   w8 (bitLen >>> 32), w8 (bitLen >>> 24), w8 (bitLen >>> 16),
   w8 (bitLen >>> 8), w8 bitLen]

/-- Merkle–Damgård padding: `0x80`, zeros to 56 mod 64, 64-bit length. -/
def padMessage (msg : List Nat) : List Nat :=
  let z := (119 - msg.length % 64) % 64
  msg ++ 128 :: (List.replicate z 0 ++ lenBytes64 (8 * msg.length))

/-- Split into 64-byte blocks (fuelled; the padded length is a multiple of
64 and the fuel `l.length` suffices). -/
def toBlocksGo : Nat → List Nat → List (List Nat)
  | 0, _ => []
  | _ + 1, [] => []
  | fuel + 1, c :: cs =>
      ((c :: cs).take 64) :: toBlocksGo fuel ((c :: cs).drop 64)

def toBlocks (l : List Nat) : List (List Nat) := toBlocksGo l.length l

/-- Final state after compressing all blocks of the padded message. -/
def finalState (msg : List Nat) : Sha256State :=
  (toBlocks (padMessage msg)).foldl processBlock sha256Init

/-- Eight hex digits of a 32-bit word. -/
def hex8 (x : Nat) : String :=
  String.mk ((List.range 8).map fun i => hexDigitChar ((x >>> (28 - 4 * i)) % 16))

/-- `digest('hex')`. -/
def sha256Hex (msg : List Nat) : String :=
  let s := finalState msg
  String.join ([s.a, s.b, s.c, s.d, s.e, s.f, s.g, s.h].map hex8)

/-- UTF-8 bytes of a string (`createHash(…).update(string)` hashes the
UTF-8 encoding). -/
def utf8Bytes (s : String) : List Nat :=
  s.toUTF8.toList.map fun b => b.toNat

/-- `blockHash(block)`. -/
def blockHash (block : Js) : String :=
  sha256Hex (utf8Bytes (stableStringify block))

end VietMarket

namespace VietMarket

/-! ### C9: the stable-hash law -/

/-- C9 amended (forward direction): equal canonical strings give equal
hashes — `stableStringify x = stableStringify y →
blockHash x = blockHash y`; in particular two objects equal up to object
key ordering produce identical hashes.  (The converse direction of the
claimed `⇔` is refuted below: no function into 64 hex characters is
injective on unboundedly many canonical strings.) -/
theorem blockHash_congr (x y : Js)
    (h : stableStringify x = stableStringify y) :
    blockHash x = blockHash y := by
  unfold blockHash
  rw [h]

/-- Witness for the amended C9: two objects that differ only in key order
canonicalize identically, hence hash identically. -/
theorem blockHash_congr_witness :
    stableStringify (Js.obj [("b", Js.num 1), ("a", Js.num 2)]) =
      stableStringify (Js.obj [("a", Js.num 2), ("b", Js.num 1)]) ∧
    blockHash (Js.obj [("b", Js.num 1), ("a", Js.num 2)]) =
      blockHash (Js.obj [("a", Js.num 2), ("b", Js.num 1)]) :=
  ⟨by
    simp +decide [stableStringify, ssFields, sortRendered, insertField,
      jsonQuote, escapeList, escapeChar, joinComma],
    blockHash_congr (Js.obj [("b", Js.num 1), ("a", Js.num 2)])
      (Js.obj [("a", Js.num 2), ("b", Js.num 1)])
      (by
        simp +decide [stableStringify, ssFields, sortRendered, insertField,
          jsonQuote, escapeList, escapeChar, joinComma])⟩

/-- 32-bit truncation is bounded. -/
theorem w32_lt (x : Nat) : w32 x < 4294967296 :=
  Nat.mod_lt _ (by norm_num)

/-- All eight registers below `2^32`. -/
def BoundedState (s : Sha256State) : Prop :=
  s.a < 4294967296 ∧ s.b < 4294967296 ∧ s.c < 4294967296 ∧
  s.d < 4294967296 ∧ s.e < 4294967296 ∧ s.f < 4294967296 ∧
  s.g < 4294967296 ∧ s.h < 4294967296

theorem addStates_bounded (x y : Sha256State) :
    BoundedState (addStates x y) :=
  ⟨w32_lt _, w32_lt _, w32_lt _, w32_lt _, w32_lt _, w32_lt _, w32_lt _,
    w32_lt _⟩

theorem processBlock_bounded (st : Sha256State) (b : List Nat) :
    BoundedState (processBlock st b) := by
  unfold processBlock
  exact addStates_bounded _ _

theorem foldl_processBlock_bounded (bs : List (List Nat)) (st : Sha256State)
    (h : BoundedState st) : BoundedState (bs.foldl processBlock st) := by
  induction bs generalizing st with
  | nil => exact h
  | cons b rest ih =>
      rw [List.foldl_cons]
      exact ih _ (processBlock_bounded st b)

theorem finalState_bounded (msg : List Nat) : BoundedState (finalState msg) :=
  foldl_processBlock_bounded _ _ (by
    refine ⟨?_, ?_, ?_, ?_, ?_, ?_, ?_, ?_⟩ <;> norm_num [sha256Init])

theorem sha256State_eq (s1 s2 : Sha256State)
    (ha : s1.a = s2.a) (hb : s1.b = s2.b) (hc : s1.c = s2.c)
    (hd : s1.d = s2.d) (he : s1.e = s2.e) (hf : s1.f = s2.f)
    (hg : s1.g = s2.g) (hh : s1.h = s2.h) : s1 = s2 := by
  cases s1
  cases s2
  simp_all

/-- The digest as a tuple of bounded words: the range of SHA-256 is
finite. -/
def digestFin (msg : List Nat) :
    Fin 4294967296 × Fin 4294967296 × Fin 4294967296 × Fin 4294967296 ×
      Fin 4294967296 × Fin 4294967296 × Fin 4294967296 × Fin 4294967296 :=
  let s := finalState msg
  (⟨w32 s.a, w32_lt _⟩, ⟨w32 s.b, w32_lt _⟩, ⟨w32 s.c, w32_lt _⟩,
   ⟨w32 s.d, w32_lt _⟩, ⟨w32 s.e, w32_lt _⟩, ⟨w32 s.f, w32_lt _⟩,
   ⟨w32 s.g, w32_lt _⟩, ⟨w32 s.h, w32_lt _⟩)

theorem sha256Hex_eq_of_digestFin (m1 m2 : List Nat)
    (h : digestFin m1 = digestFin m2) : sha256Hex m1 = sha256Hex m2 := by
  obtain ⟨a1, b1, c1, d1, e1, f1, g1, h1⟩ := finalState_bounded m1
  obtain ⟨a2, b2, c2, d2, e2, f2, g2, h2⟩ := finalState_bounded m2
  simp only [digestFin, Prod.mk.injEq, Fin.mk.injEq, w32] at h
  rw [Nat.mod_eq_of_lt a1, Nat.mod_eq_of_lt a2, Nat.mod_eq_of_lt b1,
    Nat.mod_eq_of_lt b2, Nat.mod_eq_of_lt c1, Nat.mod_eq_of_lt c2,
    Nat.mod_eq_of_lt d1, Nat.mod_eq_of_lt d2, Nat.mod_eq_of_lt e1,
    Nat.mod_eq_of_lt e2, Nat.mod_eq_of_lt f1, Nat.mod_eq_of_lt f2,
    Nat.mod_eq_of_lt g1, Nat.mod_eq_of_lt g2, Nat.mod_eq_of_lt h1,
    Nat.mod_eq_of_lt h2] at h
  have hs : finalState m1 = finalState m2 :=
    sha256State_eq _ _ h.1 h.2.1 h.2.2.1 h.2.2.2.1 h.2.2.2.2.1
      h.2.2.2.2.2.1 h.2.2.2.2.2.2.1 h.2.2.2.2.2.2.2
  simp only [sha256Hex, hs]

/-- The JSON string value of `n` letters `a`. -/
def aJs (n : Nat) : Js := Js.str (String.mk (List.replicate n 'a'))

theorem escapeList_replicate_a (n : Nat) :
    escapeList (List.replicate n 'a') = List.replicate n 'a' := by
  induction n with
  | zero => rfl
  | succ k ih =>
      rw [List.replicate_succ, escapeList,
        show escapeChar 'a' = "a" from by decide, ih]
      rfl

theorem stableStringify_aJs_length (n : Nat) :
    (stableStringify (aJs n)).length = n + 2 := by
  have h1 : stableStringify (aJs n) =
      jsonQuote (String.mk (List.replicate n 'a')) := by
    simp [stableStringify, aJs]
  rw [h1, jsonQuote]
  show ('"' :: (escapeList (String.mk (List.replicate n 'a')).data ++
    ['"'])).length = n + 2
  rw [show (String.mk (List.replicate n 'a')).data = List.replicate n 'a'
    from rfl, escapeList_replicate_a]
  simp

/-- SHA-256 digests live in a finite type while canonical strings grow
without bound: two distinct all-`a` JSON strings share a `blockHash`. -/
theorem blockHash_aJs_collision :
    ∃ m n : Nat, m ≠ n ∧ blockHash (aJs m) = blockHash (aJs n) := by
  obtain ⟨m, n, hmn, h⟩ := Finite.exists_ne_map_eq_of_infinite
    fun k : Nat => digestFin (utf8Bytes (stableStringify (aJs k)))
  exact ⟨m, n, hmn, sha256Hex_eq_of_digestFin _ _ h⟩

/-- C9 counterexample: the claimed equivalence
`stableStringify(x) = stableStringify(y) ⇔ blockHash(x) = blockHash(y)`
is false — its right-to-left direction would make a function with 2^256
possible outputs injective on the infinitely many canonical strings
`"a…a"`. -/
theorem stableHash_iff_counterexample :
    ¬ ∀ x y : Js,
        stableStringify x = stableStringify y ↔ blockHash x = blockHash y := by
  intro hIff
  obtain ⟨m, n, hmn, hbh⟩ := blockHash_aJs_collision
  have hss := (hIff (aJs m) (aJs n)).mpr hbh
  have hlen := congrArg String.length hss
  rw [stableStringify_aJs_length, stableStringify_aJs_length] at hlen
  omega

end VietMarket
